import Mathlib

/-!
Verification of the adventure engine (src/adv.go) against its specification.

The Go program is embedded shallowly: strings are modelled through their
character lists (the program only ever slices at ASCII label boundaries, so
Go byte indexing and character indexing agree on every input that matters),
maps are modelled as functions into Option, and the external text-generation
backend (callOpenAI, including its retry/placeholder behaviour) is modelled
as an explicit function parameter of type Oracle.  Random draws
(math/rand Intn) are modelled by reducing an arbitrary natural seed modulo
the bound, which realises exactly the possible return values.
-/

namespace Adv

/-! ## String primitives (models of the Go strings package operations used) -/

/-- Model of strings.TrimSpace style trailing trimming on character lists. -/
def dropTrailWhile (p : Char → Bool) (cs : List Char) : List Char :=
  (cs.reverse.dropWhile p).reverse

/-- Model of strings.TrimSpace: whitespace removed from both ends. -/
def strTrim (s : String) : String :=
  ⟨dropTrailWhile Char.isWhitespace (s.data.dropWhile Char.isWhitespace)⟩

/-- Model of strings.ToLower (the program only relies on ASCII case mapping). -/
def strToLower (s : String) : String :=
  ⟨s.data.map Char.toLower⟩

/-- Model of strings.ToUpper (the program only relies on ASCII case mapping). -/
def strToUpper (s : String) : String :=
  ⟨s.data.map Char.toUpper⟩

/-- Model of the Go slice s[n:] (ASCII positions, see module comment). -/
def strDrop (s : String) (n : Nat) : String :=
  ⟨s.data.drop n⟩

/-- Model of strings.HasPrefix. -/
def strStartsWith (s p : String) : Bool :=
  p.data.isPrefixOf s.data

/-- Helper for strings.Split on a one character separator. -/
def splitChAux (sep : Char) : List Char → List Char → List (List Char)
  | acc, [] => [acc.reverse]
  | acc, c :: cs =>
    if c = sep then acc.reverse :: splitChAux sep [] cs
    else splitChAux sep (c :: acc) cs

/-- Model of strings.Split (one character separator, empty parts kept). -/
def strSplitOn (s : String) (sep : Char) : List String :=
  (splitChAux sep [] s.data).map (fun cs => ⟨cs⟩)

/-- Helper for strings.Fields: split on whitespace runs, dropping empties. -/
def fieldsAux : List Char → List Char → List (List Char)
  | acc, [] => if acc.isEmpty then [] else [acc.reverse]
  | acc, c :: cs =>
    if c.isWhitespace then
      (if acc.isEmpty then fieldsAux [] cs else acc.reverse :: fieldsAux [] cs)
    else fieldsAux (c :: acc) cs

/-- Model of strings.Fields. -/
def strFields (s : String) : List String :=
  (fieldsAux [] s.data).map (fun cs => ⟨cs⟩)

/-- Join a list of strings with a separator (model of strings.Join). -/
def joinWith (sep : String) : List String → String
  | [] => ""
  | [x] => x
  | x :: y :: xs => x ++ sep ++ joinWith sep (y :: xs)

/-! ## Data model -/

/-- Message for the chat API (adv.go lines 44-47). -/
structure Message where
  role : String
  content : String
deriving DecidableEq

/-- The external text generation backend.  callOpenAI (adv.go lines 154-199)
always returns a string: on transport or decoding failure it degrades to the
placeholder response, so a total function is a faithful model of its
observable behaviour. -/
abbrev Oracle := List Message → String

/-- NPC data (adv.go lines 66-70). -/
structure Npc where
  bio : String
  backstory : String
  affinity : Int
deriving DecidableEq

/-- Go map npcData: map[string]*Npc. -/
abbrev Registry := String → Option Npc

/-- Go map playerState.MapGraph: map[string]map[string]bool.  Absent keys
read as false, exactly as in Go. -/
abbrev MapGraph := String → String → Bool

/-- Player state (adv.go lines 73-80).  Stats is map[string]int. -/
structure PlayerState where
  stats : String → Option Int
  inventory : List String
  journal : List String
  visitedLocations : List String
  mapGraph : MapGraph
  currentLocation : String

/-- SaveData for save/load (adv.go lines 83-87). -/
structure SaveData where
  npcData : Registry
  playerState : PlayerState
  history : List Message

/-- summaryPrompt global (adv.go line 98). -/
def summaryPrompt : String :=
  "Summarize the following adventure context in two sentences."

/-! ## Context window manager: pruneHistory (adv.go lines 202-216) -/

/-- maxMsgs constant of pruneHistory. -/
def maxMsgs : Nat := 30

/-- keepTail constant of pruneHistory. -/
def keepTail : Nat := 10

/-- pruneHistory (adv.go lines 202-216): if the history is short enough it
is returned unchanged; otherwise everything but the last keepTail messages
is summarized by one oracle call, and the result is the summary system
message followed by the untouched tail. -/
def pruneHistory (ora : Oracle) (msgs : List Message) : List Message :=
  if msgs.length ≤ maxMsgs then msgs
  else
    let toSumm := msgs.take (msgs.length - keepTail)
    let tail := msgs.drop (msgs.length - keepTail)
    let summary := ora (⟨"system", summaryPrompt⟩ :: toSumm)
    ⟨"system", "SUMMARY: " ++ summary⟩ :: tail

/-- Claim C1: pruneHistory returns the history unchanged when its length is
at most 30; when the length exceeds 30 the result has length exactly 11, its
first element is a system message whose content is "SUMMARY: " prefixed to
the oracle reply for the head (the placeholder string on failure is just one
possible oracle reply), and the rest is exactly the last 10 messages of the
input, in order. -/
theorem c1_prune_spec (ora : Oracle) (H : List Message) :
    (H.length ≤ 30 → pruneHistory ora H = H)
    ∧ (30 < H.length →
        (pruneHistory ora H).length = 11
        ∧ (pruneHistory ora H).head? =
            some ⟨"system",
              "SUMMARY: " ++ ora (⟨"system", summaryPrompt⟩ :: H.take (H.length - 10))⟩
        ∧ List.drop 1 (pruneHistory ora H) = H.drop (H.length - 10)) := by
  constructor
  · intro h
    simp [pruneHistory, maxMsgs, h]
  · intro h
    have hn : ¬ H.length ≤ maxMsgs := by simp [maxMsgs]; omega
    refine ⟨?_, ?_, ?_⟩
    · simp only [pruneHistory, if_neg hn, keepTail, List.length_cons, List.length_drop]
      omega
    · simp [pruneHistory, if_neg hn, keepTail]
    · simp [pruneHistory, if_neg hn, keepTail]

/-- A fixed message used in concrete evaluations. -/
def msgX : Message := ⟨"user", "x"⟩

/-- A fixed oracle used in concrete evaluations. -/
def oracleK : Oracle := fun _ => "S"

/-- Witness for C1 at concrete inputs: a short history is untouched, and a
31 message history compacts to 11 messages whose tail is the last 10. -/
theorem c1_prune_spec_witness :
    pruneHistory oracleK [msgX] = [msgX]
    ∧ (pruneHistory oracleK (List.replicate 31 msgX)).length = 11
    ∧ List.drop 1 (pruneHistory oracleK (List.replicate 31 msgX)) =
        List.drop 21 (List.replicate 31 msgX) := by
  refine ⟨(c1_prune_spec oracleK [msgX]).1 (by simp),
    ((c1_prune_spec oracleK (List.replicate 31 msgX)).2 (by simp)).1,
    ?_⟩
  have h := ((c1_prune_spec oracleK (List.replicate 31 msgX)).2 (by simp)).2.2
  simpa using h

/-! ## World graph and location tracker -/

/-- titleCase on a single word (adv.go lines 133-141: first character
uppercased, remainder lowercased). -/
def titleCaseWord (w : String) : String :=
  match w.data with
  | [] => w
  | c :: rest => ⟨Char.toUpper c :: rest.map Char.toLower⟩

/-- titleCase (adv.go lines 133-141): title-case each whitespace field and
rejoin with single spaces. -/
def titleCase (s : String) : String :=
  joinWith " " ((strFields s).map titleCaseWord)

/-- contains (adv.go lines 144-151): exact string membership in a slice. -/
def contains (slice : List String) (s : String) : Bool :=
  match slice with
  | [] => false
  | v :: rest => if v = s then true else contains rest s

/-- contains agrees with list membership. -/
theorem contains_iff (l : List String) (s : String) :
    contains l s = true ↔ s ∈ l := by
  induction l with
  | nil => simp [contains]
  | cons v rest ih =>
    by_cases h : v = s <;> simp [contains, h, ih]
    exact fun hs => (h hs.symm).elim

/-- One inner-map write playerState.MapGraph[a][b] = true
(adv.go lines 705-706). -/
def setEdge (g : MapGraph) (a b : String) : MapGraph :=
  fun x y => if x = a ∧ y = b then true else g x y

/-- The pair of writes performed by the movement dispatch
(adv.go lines 705-706): both directions of the edge are set. -/
def moveEdges (g : MapGraph) (prev dest : String) : MapGraph :=
  setEdge (setEdge g prev dest) dest prev

/-- The playerState mutations of the movement dispatch
(adv.go lines 696-711): record the bidirectional edge when the previous
location is non-empty, set the current location, and append the destination
to the visited list when absent. -/
def movePS (ps : PlayerState) (dest : String) : PlayerState :=
  let prev := ps.currentLocation
  { ps with
    mapGraph := if prev = "" then ps.mapGraph else moveEdges ps.mapGraph prev dest
    currentLocation := dest
    visitedLocations :=
      if contains ps.visitedLocations dest then ps.visitedLocations
      else ps.visitedLocations ++ [dest] }

/-- initStats: the stat assignment loop of initPlayerState
(adv.go lines 274-278).  Each of the six attributes receives
rand.Intn(11) + 8; the draws argument supplies the successive random values
and is reduced mod 11, realising exactly the possible Intn results. -/
def initStats (draws : Nat → Nat) : String → Option Int := fun s =>
  if s = "STR" then some ((draws 0 % 11 + 8 : Nat) : Int)
  else if s = "DEX" then some ((draws 1 % 11 + 8 : Nat) : Int)
  else if s = "CON" then some ((draws 2 % 11 + 8 : Nat) : Int)
  else if s = "INT" then some ((draws 3 % 11 + 8 : Nat) : Int)
  else if s = "WIS" then some ((draws 4 % 11 + 8 : Nat) : Int)
  else if s = "CHA" then some ((draws 5 % 11 + 8 : Nat) : Int)
  else none

/-- The six attribute names (adv.go line 276). -/
def statNames : List String := ["STR", "DEX", "CON", "INT", "WIS", "CHA"]

/-- initPlayerState (adv.go lines 274-287). -/
def initPlayerState (draws : Nat → Nat) : PlayerState :=
  { stats := initStats draws
    inventory := []
    journal := []
    visitedLocations := []
    mapGraph := fun _ _ => false
    currentLocation := "" }

/-- New-game setup of the player state (adv.go lines 474-491): after
initPlayerState, the starting location becomes current and is appended to
the visited list. -/
def newGamePS (draws : Nat → Nat) (start : String) : PlayerState :=
  let ps := initPlayerState draws
  { ps with
    currentLocation := start
    visitedLocations := ps.visitedLocations ++ [start] }

/-- Player states reachable through the operations of the game loop that
touch the player state: new-game setup, the movement dispatch (whose
destination is the title-cased command argument), and the journal append of
the examine dispatch. -/
inductive ReachPS : PlayerState → Prop
  | init (draws : Nat → Nat) (start : String) : ReachPS (newGamePS draws start)
  | move (ps : PlayerState) (raw : String) :
      ReachPS ps → ReachPS (movePS ps (titleCase raw))
  | examine (ps : PlayerState) (entry : String) :
      ReachPS ps → ReachPS { ps with journal := ps.journal ++ [entry] }

/-- Symmetry of an adjacency map. -/
def SymmGraph (g : MapGraph) : Prop := ∀ x y, g x y = g y x

/-- moveEdges preserves symmetry. -/
theorem symmGraph_moveEdges (g : MapGraph) (a b : String)
    (hg : SymmGraph g) : SymmGraph (moveEdges g a b) := by
  intro x y
  simp only [moveEdges, setEdge]
  by_cases h1 : x = b ∧ y = a
  · have h4 : y = a ∧ x = b := ⟨h1.2, h1.1⟩
    simp [h1, h4]
  · by_cases h2 : x = a ∧ y = b
    · have h3 : y = b ∧ x = a := ⟨h2.2, h2.1⟩
      simp [h2, h3]
    · have h3 : ¬(y = b ∧ x = a) := fun hc => h2 ⟨hc.2, hc.1⟩
      have h4 : ¬(y = a ∧ x = b) := fun hc => h1 ⟨hc.2, hc.1⟩
      simp [h1, h2, h3, h4, hg x y]

/-- Claim C2: after a move from a non-empty location a to b, the adjacency
map holds b under a and a under b; re-inserting the same edge changes
nothing (no duplication); and the map graph is symmetric in every reachable
player state. -/
theorem c2_graph_symmetry :
    (∀ (ps : PlayerState) (b : String), ps.currentLocation ≠ "" →
      (movePS ps b).mapGraph ps.currentLocation b = true
      ∧ (movePS ps b).mapGraph b ps.currentLocation = true)
    ∧ (∀ (g : MapGraph) (a b : String),
        moveEdges (moveEdges g a b) a b = moveEdges g a b)
    ∧ (∀ ps : PlayerState, ReachPS ps → SymmGraph ps.mapGraph) := by
  refine ⟨?_, ?_, ?_⟩
  · intro ps b h
    constructor
    · by_cases hab : ps.currentLocation = b
      · subst hab
        simp [movePS, h, moveEdges, setEdge]
      · simp [movePS, h, moveEdges, setEdge, hab]
    · simp [movePS, h, moveEdges, setEdge]
  · intro g a b
    funext x y
    simp only [moveEdges, setEdge]
    split_ifs <;> rfl
  · intro ps hr
    induction hr with
    | init draws start =>
      intro x y
      rfl
    | move ps raw hr ih =>
      simp only [movePS]
      by_cases h : ps.currentLocation = ""
      · simpa [h] using ih
      · simpa [h] using symmGraph_moveEdges _ _ _ ih
    | examine ps entry hr ih =>
      exact ih

/-- A fixed draw sequence used in concrete evaluations. -/
def drawsZ : Nat → Nat := fun _ => 0

/-- Witness for C2 at a concrete reachable state: moving from Town to
Market records both directions of the edge, and the initial graph is
symmetric. -/
theorem c2_graph_symmetry_witness :
    (movePS (newGamePS drawsZ "Town") "Market").mapGraph "Town" "Market" = true
    ∧ (movePS (newGamePS drawsZ "Town") "Market").mapGraph "Market" "Town" = true
    ∧ SymmGraph (newGamePS drawsZ "Town").mapGraph := by
  have h := c2_graph_symmetry.1 (newGamePS drawsZ "Town") "Market" (by decide)
  exact ⟨h.1, h.2, c2_graph_symmetry.2.2 _ (ReachPS.init drawsZ "Town")⟩

/-- Claim C7: in every reachable player state with a non-empty current
location, the current location is a member of the visited list. -/
theorem c7_current_in_visited (ps : PlayerState) (h : ReachPS ps) :
    ps.currentLocation ≠ "" → ps.currentLocation ∈ ps.visitedLocations := by
  induction h with
  | init draws start =>
    intro _
    simp [newGamePS, initPlayerState]
  | move ps raw hr ih =>
    intro _
    simp only [movePS]
    by_cases hc : contains ps.visitedLocations (titleCase raw) = true
    · simpa [hc] using (contains_iff _ _).mp hc
    · simp [hc]
  | examine ps entry hr ih =>
    intro hne
    simpa using ih hne

/-- Witness for C7 at a concrete reachable state. -/
theorem c7_current_in_visited_witness :
    (newGamePS drawsZ "Town").currentLocation ∈
      (newGamePS drawsZ "Town").visitedLocations :=
  c7_current_in_visited _ (ReachPS.init drawsZ "Town") (by decide)

/-- Claim C9: at new-game initialization each of the six attributes is an
integer in [8, 18], for every possible random draw sequence. -/
theorem c9_init_stats (draws : Nat → Nat) :
    ∀ s ∈ statNames, ∃ v : Int,
      (initPlayerState draws).stats s = some v ∧ 8 ≤ v ∧ v ≤ 18 := by
  intro s hs
  simp only [statNames, List.mem_cons, List.mem_singleton, List.not_mem_nil,
    or_false] at hs
  have bound : ∀ n : Nat, 8 ≤ ((n % 11 + 8 : Nat) : Int)
      ∧ ((n % 11 + 8 : Nat) : Int) ≤ 18 := by
    intro n
    have := Nat.mod_lt n (show 0 < 11 by norm_num)
    omega
  rcases hs with h | h | h | h | h | h <;> subst h <;>
    exact ⟨_, rfl, (bound _).1, (bound _).2⟩

/-- Witness for C9: with the all-zero draw sequence, STR is assigned a
value in range (namely 8). -/
theorem c9_init_stats_witness :
    ∃ v : Int, (initPlayerState drawsZ).stats "STR" = some v
      ∧ 8 ≤ v ∧ v ≤ 18 :=
  c9_init_stats drawsZ "STR" (by decide)

/-! ## NPC persona registry (startConversation, adv.go lines 321-380) -/

/-- The persona bootstrap prompt (adv.go lines 323-332): the last at most 6
history messages followed by the labeled-sections instruction. -/
def bootstrapPrompt (hist : List Message) (name : String) : List Message :=
  let last := if hist.length > 6 then hist.drop (hist.length - 6) else hist
  last ++ [⟨"user",
    "You previously described an NPC named \x27" ++ name ++ "\x27.\n" ++
    "Please provide TWO clearly labeled sections:\n" ++
    "BIO: One sentence describing who they are (name/title/role).\n" ++
    "BACKSTORY: Two sentences about their past, interests, or beliefs.\n" ++
    "Respond exactly in this format."⟩]

/-- The persona reply parser (adv.go lines 334-349): scan each line, on a
case-insensitive "BIO:" prefix take strings.TrimSpace(line[4:]) as the bio,
on a case-insensitive "BACKSTORY:" prefix take strings.TrimSpace(line[9:])
as the backstory (note: the label is 10 characters but only 9 are sliced
off), and substitute the fixed fallbacks for missing labels. -/
def parsePersona (name summary : String) : String × String :=
  let pair := (strSplitOn summary '\n').foldl
    (fun (acc : String × String) line =>
      let up := strToUpper line
      let acc1 :=
        if strStartsWith up "BIO:" then (strTrim (strDrop line 4), acc.2)
        else acc
      if strStartsWith up "BACKSTORY:" then (acc1.1, strTrim (strDrop line 9))
      else acc1)
    ("", "")
  let bio := if pair.1 = "" then name ++ ", a person of note." else pair.1
  let backstory :=
    if pair.2 = "" then "They prefer to keep much of their past private."
    else pair.2
  (bio, backstory)

/-- The bootstrap branch of startConversation (adv.go lines 322-351): if the
name is unregistered, one oracle call produces the persona reply, which is
parsed and registered with affinity 0.  The second component counts oracle
calls made. -/
def ensureNpc (ora : Oracle) (hist : List Message) (reg : Registry)
    (name : String) : Registry × Nat :=
  match reg name with
  | some _ => (reg, 0)
  | none =>
    let summary := ora (bootstrapPrompt hist name)
    let bb := parsePersona name summary
    (fun n => if n = name then some ⟨bb.1, bb.2, 0⟩ else reg n, 1)

/-- The conversation system prompt (adv.go lines 353-356). -/
def sysPromptFor (name : String) (i : Npc) : String :=
  "You are " ++ name ++ ".\n" ++ i.bio ++ "\nBackstory: " ++ i.backstory ++
  "\n\nSpeak in first-person as yourself. ALWAYS refer to yourself by that " ++
  "exact name. When the player says \x27goodbye\x27, \x27exit\x27, or " ++
  "\x27bye\x27, end the conversation politely."

/-- The affinity increment performed on conversation termination
(adv.go line 372, info.Affinity++ through the registry pointer). -/
def incrAffinity (reg : Registry) (name : String) : Registry :=
  fun n =>
    if n = name then (reg n).map (fun i => { i with affinity := i.affinity + 1 })
    else reg n

/-- Whether a raw input line terminates the conversation (adv.go
lines 363-369): after trimming, the lowercased line is goodbye, exit or
bye. -/
def isFarewell (raw : String) : Bool :=
  let low := strToLower (strTrim raw)
  low = "goodbye" || low = "exit" || low = "bye"

/-- The conversation sub-session loop (adv.go lines 360-379) driven by a
list of user input lines: empty lines are skipped, a farewell line triggers
one final oracle call and the affinity increment, any other line is echoed
to the oracle and the reply appended to the sub-session.  Returns the
registry, whether the conversation completed, and the number of oracle
calls. -/
def convLoop (ora : Oracle) (reg : Registry) (name : String) :
    List Message → List String → Registry × Bool × Nat
  | _, [] => (reg, false, 0)
  | conv, raw :: rest =>
    let line := strTrim raw
    if line = "" then convLoop ora reg name conv rest
    else
      let conv2 := conv ++ [⟨"user", line⟩]
      let low := strToLower line
      if low = "goodbye" ∨ low = "exit" ∨ low = "bye" then
        (incrAffinity reg name, true, 1)
      else
        let reply := ora conv2
        let r := convLoop ora reg name (conv2 ++ [⟨"assistant", reply⟩]) rest
        (r.1, r.2.1, r.2.2 + 1)

/-- startConversation (adv.go lines 321-380): bootstrap the persona if
needed, seed the sub-session with the persona system prompt, then run the
conversation loop.  The sub-session itself is discarded; only the registry
survives.  Returns the registry, whether the conversation completed, and
the number of oracle calls. -/
def startConversation (ora : Oracle) (hist : List Message) (reg : Registry)
    (name : String) (lines : List String) : Registry × Bool × Nat :=
  let er := ensureNpc ora hist reg name
  let info := (er.1 name).getD ⟨"", "", 0⟩
  let r := convLoop ora er.1 name [⟨"system", sysPromptFor name info⟩] lines
  (r.1, r.2.1, er.2 + r.2.2)

/-- Claim C4: a second bootstrap call for an already registered name makes
no oracle call and returns the registry unchanged (hence identical bio and
backstory); generally, registering a registered name is a no-op. -/
theorem c4_ensure_once (ora ora2 : Oracle) (hist hist2 : List Message)
    (reg : Registry) (name : String) :
    ensureNpc ora2 hist2 (ensureNpc ora hist reg name).1 name =
      ((ensureNpc ora hist reg name).1, 0)
    ∧ ((reg name).isSome = true → ensureNpc ora hist reg name = (reg, 0)) := by
  constructor
  · cases h : reg name with
    | some i => simp [ensureNpc, h]
    | none => simp [ensureNpc, h]
  · intro h
    cases hr : reg name with
    | some i => simp [ensureNpc, hr]
    | none => rw [hr] at h; simp at h

/-- An empty registry. -/
def regEmpty : Registry := fun _ => none

/-- A registry holding one NPC named Selene. -/
def regSelene : Registry :=
  fun n => if n = "Selene" then some ⟨"B", "K", 0⟩ else none

/-- Witness for C4 at a concrete registry that already holds Selene. -/
theorem c4_ensure_once_witness :
    (regSelene "Selene").isSome = true
    ∧ ensureNpc oracleK [] regSelene "Selene" = (regSelene, 0) :=
  ⟨by decide, (c4_ensure_once oracleK oracleK [] [] regSelene "Selene").2
    (by decide)⟩

/-- Claim C6 (code bug evidence): on the well-formed oracle reply
"BIO: The head librarian.\nBACKSTORY: Loves tea." the parser keeps a
leading colon in the backstory, because the 10-character label
"BACKSTORY:" is sliced off by only 9 characters (line[9:]); the claim and
the parallel BIO handling say the value is exactly the remainder after the
label, which would be "Loves tea." here. -/
theorem c6_backstory_colon :
    parsePersona "Selene" "BIO: The head librarian.\nBACKSTORY: Loves tea." =
      ("The head librarian.", ": Loves tea.")
    ∧ (parsePersona "Selene"
        "BIO: The head librarian.\nBACKSTORY: Loves tea.").2 ≠ "Loves tea." := by
  constructor
  · rfl
  · decide

/-! ## Stat checks (roll dispatch, adv.go lines 568-594) -/

/-- The roll modifier, mod := (val - 10) / 2 (adv.go line 573).  Go integer
division truncates toward zero, which is Int.tdiv. -/
def rollModifier (val : Int) : Int := Int.tdiv (val - 10) 2

/-- The die draw, die := rand.Intn(20) + 1 (adv.go line 574); the arbitrary
seed is reduced mod 20, realising exactly the possible Intn results. -/
def rollDie (r : Nat) : Nat := r % 20 + 1

/-- total := die + mod (adv.go line 575). -/
def rollTotal (val : Int) (die : Nat) : Int := (die : Int) + rollModifier val

/-- The reported outcome against a parsed DC (adv.go lines 579-583). -/
def rollOutcome (val : Int) (die : Nat) (dc : Int) : String :=
  if rollTotal val die ≥ dc then "Success" else "Failure"

/-- Claim C5 fails as stated: the code computes the modifier with Go
integer division, which truncates toward zero, not floor.  At the reachable
stat value v = 9 (drawn when rand.Intn(11) returns 1) the code modifier is
0 while floor((9-10)/2) = -1. -/
theorem c5_trunc_vs_floor :
    rollModifier 9 = 0
    ∧ Int.fdiv ((9 : Int) - 10) 2 = -1
    ∧ rollModifier 9 ≠ Int.fdiv ((9 : Int) - 10) 2
    ∧ (initPlayerState (fun _ => 1)).stats "STR" = some 9 := by
  refine ⟨by decide, by decide, by decide, by decide⟩

/-- Claim C5 (amended): the modifier is (v-10)/2 with truncation toward
zero, which agrees with floor((v-10)/2) whenever v ≥ 10 or v-10 is even;
the die is in [1,20] for every draw; Success is reported iff total ≥ DC,
otherwise Failure; and the worked example v=14, die=15 gives total 17,
Success vs DC 17 and Failure vs DC 18. -/
theorem c5_roll_arithmetic (v dc : Int) (r : Nat) :
    (1 ≤ rollDie r ∧ rollDie r ≤ 20)
    ∧ (rollOutcome v (rollDie r) dc = "Success" ↔ dc ≤ rollTotal v (rollDie r))
    ∧ (rollOutcome v (rollDie r) dc = "Failure" ↔ ¬ dc ≤ rollTotal v (rollDie r))
    ∧ ((10 ≤ v ∨ (v - 10) % 2 = 0) → rollModifier v = Int.fdiv (v - 10) 2)
    ∧ rollModifier 14 = 2 ∧ rollTotal 14 15 = 17
    ∧ rollOutcome 14 15 17 = "Success" ∧ rollOutcome 14 15 18 = "Failure" := by
  refine ⟨⟨?_, ?_⟩, ?_, ?_, ?_, by decide, by decide, by decide, by decide⟩
  · simp [rollDie]
  · have : r % 20 < 20 := Nat.mod_lt r (by norm_num)
    simp [rollDie]
    omega
  · unfold rollOutcome
    split_ifs with h
    · simp [h]
    · constructor
      · intro hx
        exact absurd hx (by decide)
      · intro hx
        exact absurd hx h
  · unfold rollOutcome
    split_ifs with h
    · constructor
      · intro hx
        exact absurd hx (by decide)
      · intro hx
        exact absurd h hx
    · simp [h]
  · intro h
    show Int.tdiv (v - 10) 2 = Int.fdiv (v - 10) 2
    rcases h with h10 | heven
    · rw [Int.fdiv_eq_ediv _ (by norm_num)]
      exact Int.tdiv_eq_ediv (by omega) (by norm_num)
    · have hd : (2 : Int) ∣ (v - 10) := Int.dvd_of_emod_eq_zero heven
      rw [Int.fdiv_eq_ediv_of_dvd hd]
      exact Int.tdiv_eq_ediv_of_dvd hd

/-- Witness for C5 (amended) at v = 14, seed 14 (die 15), DC 17. -/
theorem c5_roll_arithmetic_witness :
    (rollOutcome 14 (rollDie 14) 17 = "Success" ↔
      (17 : Int) ≤ rollTotal 14 (rollDie 14))
    ∧ rollModifier 14 = Int.fdiv ((14 : Int) - 10) 2 :=
  ⟨(c5_roll_arithmetic 14 17 14).2.1,
   (c5_roll_arithmetic 14 17 14).2.2.2.1 (by decide)⟩

/-! ## Environment introspection list parsing (adv.go lines 219-261) -/

/-- The punctuation cutset ".!?:;" of the token cleaning
(adv.go line 225). -/
def punctCut (c : Char) : Bool :=
  (c == '.') || (c == '!') || (c == '?') || (c == ':') || (c == ';')

/-- Model of strings.Trim(s, cutset): characters of the cutset removed from
BOTH ends (this is what the Go standard library function does). -/
def strTrimCut (s : String) (cut : Char → Bool) : String :=
  ⟨dropTrailWhile cut (s.data.dropWhile cut)⟩

/-- The token cleaning strings.Trim(strings.TrimSpace(p), ".!?:;")
(adv.go line 225). -/
def cleanTok (p : String) : String := strTrimCut (strTrim p) punctCut

/-- The keep condition name != "" && strings.ToLower(name) != "none"
(adv.go line 226). -/
def keepTok (n : String) : Bool := (n != "") && (strToLower n != "none")

/-- The token accumulation loop shared by listItems, listExits and listNpcs
(adv.go lines 222-230): split the oracle reply on commas, clean each token,
keep the survivors in order. -/
def parseList (raw : String) : List String :=
  (strSplitOn raw ',').foldl
    (fun out p =>
      let name := cleanTok p
      if keepTok name then out ++ [name] else out)
    []

/-- The one-off question of listItems (adv.go line 220). -/
def listItemsQuestion : String :=
  "List, in a comma-separated list, all objects present in this scene. " ++
  "If none, reply \x27None\x27."

/-- listItems (adv.go lines 219-231): one oracle side-query on the history
plus the question, parsed by parseList. -/
def listItems (ora : Oracle) (msgs : List Message) : List String :=
  parseList (ora (msgs ++ [⟨"user", listItemsQuestion⟩]))

/-- The parser exactly as claim C8 words it: whitespace trimmed, but
punctuation removed only from the TRAILING end of each token. -/
def parseListClaimed (raw : String) : List String :=
  (strSplitOn raw ',').filterMap (fun tok =>
    let t : String := ⟨dropTrailWhile punctCut (strTrim tok).data⟩
    if (t != "") && (strToLower t != "none") then some t else none)

/-- The parser as amended: punctuation trimmed from both leading and
trailing ends, empty and "none" tokens discarded, survivors kept in order
without deduplication. -/
def parseListAmended (raw : String) : List String :=
  (strSplitOn raw ',').filterMap (fun tok =>
    let t := strTrimCut (strTrim tok) punctCut
    if (t != "") && (strToLower t != "none") then some t else none)

/-- Claim C8 fails as stated: the Go code uses strings.Trim, which removes
punctuation from both ends, while the claim says only trailing punctuation
is trimmed.  On the token "?Sword" the code yields "Sword" but the claimed
parser yields "?Sword". -/
theorem c8_leading_punct :
    parseList "?Sword" = ["Sword"]
    ∧ parseListClaimed "?Sword" = ["?Sword"]
    ∧ parseList "?Sword" ≠ parseListClaimed "?Sword" := by
  refine ⟨by decide, by decide, by decide⟩

/-- The accumulation loop is the filterMap of the cleaning function. -/
theorem parseList_foldl_filterMap (parts : List String) :
    ∀ acc : List String,
      parts.foldl
        (fun out p =>
          let name := cleanTok p
          if keepTok name then out ++ [name] else out) acc
      = acc ++ parts.filterMap (fun p =>
          let name := cleanTok p
          if keepTok name then some name else none) := by
  induction parts with
  | nil => intro acc; simp
  | cons p ps ih =>
    intro acc
    by_cases h : keepTok (cleanTok p) = true <;>
      simp [List.foldl_cons, h, ih]

/-- Claim C8 (amended): the environment list parser splits on commas, trims
whitespace and then punctuation from BOTH ends of each token, discards
empty tokens and case-insensitive "none", and keeps the rest in order
without deduplication; in particular "Sword, , Shield!, none" parses to
["Sword", "Shield"]. -/
theorem c8_parse_amended (raw : String) :
    parseList raw = parseListAmended raw
    ∧ parseList "Sword, , Shield!, none" = ["Sword", "Shield"] := by
  constructor
  · exact parseList_foldl_filterMap (strSplitOn raw ',') []
  · decide

/-! ## Oracle text normalization (adv.go lines 107-130) -/

/-- The blank-line collapsing loop of normalizeText
(adv.go lines 116-128). -/
def collapseBlanks : Bool → List String → List String
  | _, [] => []
  | blank, l :: ls =>
    if strTrim l == "" then
      if blank then collapseBlanks true ls else "" :: collapseBlanks true ls
    else l :: collapseBlanks false ls

/-- normalizeText (adv.go lines 107-130): strip carriage returns, trim
leading and trailing blank lines, collapse blank-line runs to one. -/
def normalizeText (text : String) : String :=
  let lines := strSplitOn ⟨text.data.filter (fun c => c != '\r')⟩ '\n'
  let lines := lines.dropWhile (fun l => strTrim l == "")
  let lines := (lines.reverse.dropWhile (fun l => strTrim l == "")).reverse
  joinWith "\n" (collapseBlanks false lines)

/-! ## The game loop state machine (main, adv.go lines 443-728) -/

/-- The mutable session state owned by the game loop: the prune toggle and
the global maps plus player state and history (adv.go lines 89-100). -/
structure GameState where
  pruneEnabled : Bool
  npcData : Registry
  sceneDescriptions : String → Option String
  itemsData : String → Option String
  playerState : PlayerState
  history : List Message

/-- One Go map write m[k] = v. -/
def updateMap (m : String → Option String) (k v : String) :
    String → Option String :=
  fun x => if x = k then some v else m x

/-- The prune call of the loop (adv.go lines 524-526). -/
def pruneStep (ora : Oracle) (st : GameState) : GameState :=
  if st.pruneEnabled then { st with history := pruneHistory ora st.history }
  else st

/-- Oracle calls made by the prune call: one when the history is long
enough to be summarized. -/
def pruneCount (st : GameState) : Nat :=
  if st.pruneEnabled then (if st.history.length ≤ maxMsgs then 0 else 1)
  else 0

/-- The set prune toggle (adv.go lines 510-523). -/
def setPruneStep (st : GameState) (lc : String) : GameState :=
  if (strFields lc).length = 3
      ∧ ((strFields lc).getD 2 "" == "on"
         || (strFields lc).getD 2 "" == "off") = true
  then { st with pruneEnabled := ((strFields lc).getD 2 "" == "on") }
  else st

/-- The load dispatch (adv.go lines 556-560 with loadGame, lines 305-318):
on a readable, well-formed save file all three state components are
replaced; otherwise nothing changes.  The file contents are an external
input, modelled as an Option parameter. -/
def loadStep (file : Option SaveData) (st : GameState) : GameState :=
  match file with
  | some d =>
    { st with
      npcData := d.npcData
      playerState := d.playerState
      history := d.history }
  | none => st

/-- The talk to name dispatch (adv.go lines 638-646). -/
def talkStep (ora : Oracle) (cl : List String) (st : GameState)
    (cmd : String) (pc : Nat) : GameState × Nat :=
  if strTrim (strDrop cmd 8) = "" then (st, pc)
  else
    ({ st with npcData :=
        (startConversation ora st.history st.npcData
          (strTrim (strDrop cmd 8)) cl).1 },
     pc + (startConversation ora st.history st.npcData
        (strTrim (strDrop cmd 8)) cl).2.2)

/-- The look dispatch (adv.go lines 648-655): command and normalized reply
appended to history (the environment summary makes three further calls but
mutates nothing). -/
def lookStep (ora : Oracle) (st : GameState) (cmd : String) : GameState :=
  let h1 := st.history ++ [⟨"user", cmd⟩]
  let desc := normalizeText (ora h1)
  { st with history := h1 ++ [⟨"assistant", desc⟩] }

/-- The examine target, first matching prefix of examine, look at, inspect
(adv.go lines 658-661); each prefix is 8 characters long. -/
def examineTarget (cmd lc : String) : Option String :=
  if strStartsWith lc "examine " then some (strTrim (strDrop cmd 8))
  else if strStartsWith lc "look at " then some (strTrim (strDrop cmd 8))
  else if strStartsWith lc "inspect " then some (strTrim (strDrop cmd 8))
  else none

/-- The examine dispatch body (adv.go lines 663-671). -/
def examineStep (ora : Oracle) (st : GameState) (cmd target : String) :
    GameState :=
  let h1 := st.history ++ [⟨"user", cmd⟩]
  let desc := normalizeText (ora h1)
  { st with
    itemsData := updateMap st.itemsData target desc
    playerState := { st.playerState with
      journal := st.playerState.journal ++ ["Examined " ++ target ++ "."] }
    history := h1 ++ [⟨"assistant", desc⟩] }

/-- The movement destination (adv.go lines 680-695): a movement prefix with
title-cased argument, or a bare cardinal direction. -/
def moveDest (cmd lc : String) : Option String :=
  if strStartsWith lc "go to " then some (titleCase (strDrop cmd 6))
  else if strStartsWith lc "move to " then some (titleCase (strDrop cmd 8))
  else if strStartsWith lc "travel to " then some (titleCase (strDrop cmd 10))
  else if lc = "north" ∨ lc = "south" ∨ lc = "east" ∨ lc = "west" then
    some (titleCase lc)
  else none

/-- The movement dispatch body (adv.go lines 696-719): player state moved,
command and normalized reply appended to history, scene cached (the
environment summary makes three further calls but mutates nothing). -/
def moveStep (ora : Oracle) (st : GameState) (cmd dest : String) :
    GameState :=
  let h1 := st.history ++ [⟨"user", cmd⟩]
  let resp := normalizeText (ora h1)
  { st with
    playerState := movePS st.playerState dest
    history := h1 ++ [⟨"assistant", resp⟩]
    sceneDescriptions := updateMap st.sceneDescriptions dest resp }

/-- The default forward (adv.go lines 721-727). -/
def defaultStep (ora : Oracle) (st : GameState) (cmd : String) : GameState :=
  let h1 := st.history ++ [⟨"user", cmd⟩]
  let resp := normalizeText (ora h1)
  { st with history := h1 ++ [⟨"assistant", resp⟩] }

/-- The dispatch chain after the empty check, the set prune check and the
prune call (adv.go lines 527-727).  st1 is the post-prune state, cmd the
trimmed command, pc the oracle calls made so far; the result pairs the new
state with the total oracle call count for this loop iteration. -/
def gameStepB (ora : Oracle) (file : Option SaveData) (cl : List String)
    (st1 : GameState) (cmd : String) (pc : Nat) : GameState × Nat :=
  if strToLower cmd = "quit" ∨ strToLower cmd = "exit" ∨ strToLower cmd = "stop" then (st1, pc)
  else if strToLower cmd = "help" ∨ strToLower cmd = "?" then (st1, pc)
  else if strToLower cmd = "inventory" then (st1, pc)
  else if strToLower cmd = "stats" then (st1, pc)
  else if strToLower cmd = "journal" then (st1, pc)
  else if strToLower cmd = "save" then (st1, pc)
  else if strToLower cmd = "load" then (loadStep file st1, pc)
  else if strToLower cmd = "hint" then (st1, pc + 1)
  else if strStartsWith (strToLower cmd) "roll" then (st1, pc)
  else if strStartsWith (strToLower cmd) "map" then (st1, pc)
  else if strToLower cmd = "talk to" then (st1, pc + 1)
  else if strStartsWith (strToLower cmd) "talk to " then talkStep ora cl st1 cmd pc
  else if strToLower cmd = "look" ∨ strToLower cmd = "observe" ∨ strToLower cmd = "where" then
    (lookStep ora st1 cmd, pc + 4)
  else
    match examineTarget cmd (strToLower cmd) with
    | some t => if t = "" then (st1, pc) else (examineStep ora st1 cmd t, pc + 1)
    | none =>
      match moveDest cmd (strToLower cmd) with
      | some dest => (moveStep ora st1 cmd dest, pc + 4)
      | none => (defaultStep ora st1 cmd, pc + 1)

/-- The loop body on a trimmed non-empty command (adv.go lines 508-727):
the set prune toggle is checked before the prune call; everything else
follows it. -/
def gameStepA (ora : Oracle) (file : Option SaveData) (cl : List String)
    (st : GameState) (cmd : String) : GameState × Nat :=
  if strStartsWith (strToLower cmd) "set prune" then
    (setPruneStep st (strToLower cmd), 0)
  else gameStepB ora file cl (pruneStep ora st) cmd (pruneCount st)

/-- One iteration of the game loop on a raw input line
(adv.go lines 496-727): the line is trimmed, an empty result short-circuits
the whole iteration.  cl supplies the user lines of a conversation
sub-session if one is entered. -/
def gameStep (ora : Oracle) (file : Option SaveData) (cl : List String)
    (st : GameState) (cmdRaw : String) : GameState × Nat :=
  if strTrim cmdRaw = "" then (st, 0)
  else gameStepA ora file cl st (strTrim cmdRaw)

/-! ## Conversation loop lemmas -/

/-- The conversation completes exactly when some input line is a farewell. -/
theorem convLoop_done (ora : Oracle) (reg : Registry) (name : String)
    (lines : List String) :
    ∀ conv, (convLoop ora reg name conv lines).2.1 = lines.any isFarewell := by
  induction lines with
  | nil => intro conv; simp [convLoop]
  | cons raw rest ih =>
    intro conv
    by_cases h : strTrim raw = ""
    · have hf : isFarewell raw = false := by
        simp [isFarewell, h, strToLower]
      simp [convLoop, h, hf, ih]
    · by_cases hf : strToLower (strTrim raw) = "goodbye"
          ∨ strToLower (strTrim raw) = "exit"
          ∨ strToLower (strTrim raw) = "bye"
      · have hb : isFarewell raw = true := by
          simp only [isFarewell, Bool.or_eq_true, decide_eq_true_eq]
          tauto
        simp [convLoop, h, hf, hb]
      · rcases not_or.mp hf with ⟨hf1, hf23⟩
        rcases not_or.mp hf23 with ⟨hf2, hf3⟩
        have hb : isFarewell raw = false := by
          simp [isFarewell, hf1, hf2, hf3]
        simp [convLoop, h, hf, hb, ih]

/-- The registry returned by the conversation loop: the single affinity
increment happens exactly on completion. -/
theorem convLoop_registry (ora : Oracle) (reg : Registry) (name : String)
    (lines : List String) :
    ∀ conv, (convLoop ora reg name conv lines).1 =
      if lines.any isFarewell then incrAffinity reg name else reg := by
  induction lines with
  | nil => intro conv; simp [convLoop]
  | cons raw rest ih =>
    intro conv
    by_cases h : strTrim raw = ""
    · have hf : isFarewell raw = false := by
        simp [isFarewell, h, strToLower]
      simp [convLoop, h, hf, ih]
    · by_cases hf : strToLower (strTrim raw) = "goodbye"
          ∨ strToLower (strTrim raw) = "exit"
          ∨ strToLower (strTrim raw) = "bye"
      · have hb : isFarewell raw = true := by
          simp only [isFarewell, Bool.or_eq_true, decide_eq_true_eq]
          tauto
        simp [convLoop, h, hf, hb]
      · rcases not_or.mp hf with ⟨hf1, hf23⟩
        rcases not_or.mp hf23 with ⟨hf2, hf3⟩
        have hb : isFarewell raw = false := by
          simp [isFarewell, hf1, hf2, hf3]
        simp [convLoop, h, hf, hb, ih]

/-- Bootstrapping never disturbs an existing registry entry. -/
theorem ensure_preserve (ora : Oracle) (hist : List Message) (reg : Registry)
    (name n : String) (i : Npc) (h : reg n = some i) :
    (ensureNpc ora hist reg name).1 n = some i := by
  unfold ensureNpc
  cases hr : reg name with
  | some j => simpa using h
  | none =>
    by_cases hn : n = name
    · rw [hn] at h; rw [h] at hr; cases hr
    · simpa [hn] using h

/-- Any existing entry survives a conversation with its bio and backstory
intact and its affinity not decreased. -/
theorem startConversation_mono (ora : Oracle) (hist : List Message)
    (reg : Registry) (name : String) (cl : List String) (n : String) (i : Npc)
    (h : reg n = some i) :
    ∃ j, (startConversation ora hist reg name cl).1 n = some j
      ∧ i.affinity ≤ j.affinity ∧ j.bio = i.bio ∧ j.backstory = i.backstory := by
  have h1 : (ensureNpc ora hist reg name).1 n = some i :=
    ensure_preserve ora hist reg name n i h
  unfold startConversation
  rw [convLoop_registry]
  by_cases ha : cl.any isFarewell = true
  · by_cases hn : n = name
    · subst hn
      refine ⟨{ i with affinity := i.affinity + 1 }, ?_, ?_, rfl, rfl⟩
      · simp [ha, incrAffinity, h1]
      · show i.affinity ≤ i.affinity + 1
        omega
    · exact ⟨i, by simp [ha, incrAffinity, hn, h1], le_refl _, rfl, rfl⟩
  · have ha' : cl.any isFarewell = false := by
      cases hx : cl.any isFarewell
      · rfl
      · exact absurd hx ha
    exact ⟨i, by simp [ha', h1], le_refl _, rfl, rfl⟩

set_option maxHeartbeats 1000000

/-- Every dispatch branch other than talk to name and load leaves the
registry untouched. -/
theorem gameStepB_npcData (ora : Oracle) (file : Option SaveData)
    (cl : List String) (st1 : GameState) (cmd : String) (pc : Nat)
    (hts : strStartsWith (strToLower cmd) "talk to " = false)
    (hload : strToLower cmd ≠ "load") :
    (gameStepB ora file cl st1 cmd pc).1.npcData = st1.npcData := by
  unfold gameStepB
  by_cases h1 : strToLower cmd = "quit" ∨ strToLower cmd = "exit" ∨ strToLower cmd = "stop"
  · simp only [if_pos h1]
  · simp only [if_neg h1]
    by_cases h2 : strToLower cmd = "help" ∨ strToLower cmd = "?"
    · simp only [if_pos h2]
    · simp only [if_neg h2]
      by_cases h3 : strToLower cmd = "inventory"
      · simp only [if_pos h3]
      · simp only [if_neg h3]
        by_cases h4 : strToLower cmd = "stats"
        · simp only [if_pos h4]
        · simp only [if_neg h4]
          by_cases h5 : strToLower cmd = "journal"
          · simp only [if_pos h5]
          · simp only [if_neg h5]
            by_cases h6 : strToLower cmd = "save"
            · simp only [if_pos h6]
            · simp only [if_neg h6]
              by_cases h7 : strToLower cmd = "load"
              · simp only [if_pos h7]
                exact absurd h7 hload
              · simp only [if_neg h7]
                by_cases h8 : strToLower cmd = "hint"
                · simp only [if_pos h8]
                · simp only [if_neg h8]
                  by_cases h9 : strStartsWith (strToLower cmd) "roll" = true
                  · simp only [if_pos h9]
                  · simp only [if_neg h9]
                    by_cases h10 : strStartsWith (strToLower cmd) "map" = true
                    · simp only [if_pos h10]
                    · simp only [if_neg h10]
                      by_cases h11 : strToLower cmd = "talk to"
                      · simp only [if_pos h11]
                      · simp only [if_neg h11]
                        by_cases h12 : strStartsWith (strToLower cmd) "talk to " = true
                        · simp only [if_pos h12]
                          rw [h12] at hts
                          exact Bool.noConfusion hts
                        · simp only [if_neg h12]
                          by_cases h13 : strToLower cmd = "look" ∨ strToLower cmd = "observe" ∨ strToLower cmd = "where"
                          · simp only [if_pos h13]
                            rfl
                          · simp only [if_neg h13]
                            cases hE : examineTarget cmd (strToLower cmd) with
                            | some t =>
                              show (if t = "" then (st1, pc)
                                else (examineStep ora st1 cmd t, pc + 1)).1.npcData = st1.npcData
                              by_cases ht : t = ""
                              · rw [if_pos ht]
                              · rw [if_neg ht]
                                rfl
                            | none =>
                              show (match moveDest cmd (strToLower cmd) with
                                | some dest => (moveStep ora st1 cmd dest, pc + 4)
                                | none => (defaultStep ora st1 cmd, pc + 1)).1.npcData = st1.npcData
                              cases hM : moveDest cmd (strToLower cmd) with
                              | some dest => rfl
                              | none => rfl

/-- For any dispatch other than load, every existing registry entry
survives with bio and backstory intact and affinity not decreased. -/
theorem gameStepB_npc_mono (ora : Oracle) (file : Option SaveData)
    (cl : List String) (st1 : GameState) (cmd : String) (pc : Nat)
    (hload : strToLower cmd ≠ "load") (n : String) (i : Npc)
    (h : st1.npcData n = some i) :
    ∃ j, (gameStepB ora file cl st1 cmd pc).1.npcData n = some j
      ∧ i.affinity ≤ j.affinity ∧ j.bio = i.bio ∧ j.backstory = i.backstory := by
  unfold gameStepB
  by_cases h1 : strToLower cmd = "quit" ∨ strToLower cmd = "exit" ∨ strToLower cmd = "stop"
  · simp only [if_pos h1]
    exact ⟨i, h, le_refl _, rfl, rfl⟩
  · simp only [if_neg h1]
    by_cases h2 : strToLower cmd = "help" ∨ strToLower cmd = "?"
    · simp only [if_pos h2]
      exact ⟨i, h, le_refl _, rfl, rfl⟩
    · simp only [if_neg h2]
      by_cases h3 : strToLower cmd = "inventory"
      · simp only [if_pos h3]
        exact ⟨i, h, le_refl _, rfl, rfl⟩
      · simp only [if_neg h3]
        by_cases h4 : strToLower cmd = "stats"
        · simp only [if_pos h4]
          exact ⟨i, h, le_refl _, rfl, rfl⟩
        · simp only [if_neg h4]
          by_cases h5 : strToLower cmd = "journal"
          · simp only [if_pos h5]
            exact ⟨i, h, le_refl _, rfl, rfl⟩
          · simp only [if_neg h5]
            by_cases h6 : strToLower cmd = "save"
            · simp only [if_pos h6]
              exact ⟨i, h, le_refl _, rfl, rfl⟩
            · simp only [if_neg h6]
              by_cases h7 : strToLower cmd = "load"
              · simp only [if_pos h7]
                exact absurd h7 hload
              · simp only [if_neg h7]
                by_cases h8 : strToLower cmd = "hint"
                · simp only [if_pos h8]
                  exact ⟨i, h, le_refl _, rfl, rfl⟩
                · simp only [if_neg h8]
                  by_cases h9 : strStartsWith (strToLower cmd) "roll" = true
                  · simp only [if_pos h9]
                    exact ⟨i, h, le_refl _, rfl, rfl⟩
                  · simp only [if_neg h9]
                    by_cases h10 : strStartsWith (strToLower cmd) "map" = true
                    · simp only [if_pos h10]
                      exact ⟨i, h, le_refl _, rfl, rfl⟩
                    · simp only [if_neg h10]
                      by_cases h11 : strToLower cmd = "talk to"
                      · simp only [if_pos h11]
                        exact ⟨i, h, le_refl _, rfl, rfl⟩
                      · simp only [if_neg h11]
                        by_cases h12 : strStartsWith (strToLower cmd) "talk to " = true
                        · simp only [if_pos h12]
                          unfold talkStep
                          by_cases hname : strTrim (strDrop cmd 8) = ""
                          · rw [if_pos hname]
                            exact ⟨i, h, le_refl _, rfl, rfl⟩
                          · rw [if_neg hname]
                            exact startConversation_mono ora st1.history st1.npcData
                              (strTrim (strDrop cmd 8)) cl n i h
                        · simp only [if_neg h12]
                          by_cases h13 : strToLower cmd = "look" ∨ strToLower cmd = "observe" ∨ strToLower cmd = "where"
                          · simp only [if_pos h13]
                            exact ⟨i, h, le_refl _, rfl, rfl⟩
                          · simp only [if_neg h13]
                            cases hE : examineTarget cmd (strToLower cmd) with
                            | some t =>
                              show ∃ j, (if t = "" then (st1, pc)
                                  else (examineStep ora st1 cmd t, pc + 1)).1.npcData n = some j
                                ∧ i.affinity ≤ j.affinity ∧ j.bio = i.bio ∧ j.backstory = i.backstory
                              by_cases ht : t = ""
                              · rw [if_pos ht]
                                exact ⟨i, h, le_refl _, rfl, rfl⟩
                              · rw [if_neg ht]
                                exact ⟨i, h, le_refl _, rfl, rfl⟩
                            | none =>
                              cases hM : moveDest cmd (strToLower cmd) with
                              | some dest => exact ⟨i, h, le_refl _, rfl, rfl⟩
                              | none => exact ⟨i, h, le_refl _, rfl, rfl⟩

/-- Claim C3 (amended): a conversation sub-session completes exactly when
some user line, trimmed and lowercased, is goodbye, exit or bye; on
completion the named NPC affinity is incremented by exactly one relative to
the post-bootstrap registry and no other entry changes; without completion
the registry is untouched; conversations never change any bio or backstory;
apart from talk to name and load, no dispatch touches the registry at all;
and under every command except load, every existing affinity is
non-decreasing with bio and backstory intact.  (The original claim is
refuted by the load command, which replaces the registry wholesale with the
save file contents; see the counterexample.) -/
theorem c3_affinity_discipline (ora : Oracle) (file : Option SaveData)
    (cl : List String) (hist : List Message) (reg : Registry) (name : String)
    (lines : List String) (st : GameState) (cmd : String) :
    ((startConversation ora hist reg name lines).2.1 = lines.any isFarewell)
    ∧ (lines.any isFarewell = true →
        (startConversation ora hist reg name lines).1 =
          incrAffinity (ensureNpc ora hist reg name).1 name)
    ∧ (lines.any isFarewell = false →
        (startConversation ora hist reg name lines).1 =
          (ensureNpc ora hist reg name).1)
    ∧ (∀ m i j, (ensureNpc ora hist reg name).1 m = some i →
        (startConversation ora hist reg name lines).1 m = some j →
        j.bio = i.bio ∧ j.backstory = i.backstory)
    ∧ (strStartsWith (strToLower (strTrim cmd)) "talk to " = false →
        strToLower (strTrim cmd) ≠ "load" →
        (gameStep ora file cl st cmd).1.npcData = st.npcData)
    ∧ (strToLower (strTrim cmd) ≠ "load" →
        ∀ n i, st.npcData n = some i →
          ∃ j, (gameStep ora file cl st cmd).1.npcData n = some j
            ∧ i.affinity ≤ j.affinity ∧ j.bio = i.bio
            ∧ j.backstory = i.backstory) := by
  refine ⟨?_, ?_, ?_, ?_, ?_, ?_⟩
  · simp only [startConversation]
    rw [convLoop_done]
  · intro ha
    simp only [startConversation]
    rw [convLoop_registry, ha]
    rw [if_pos rfl]
  · intro ha
    simp only [startConversation]
    rw [convLoop_registry, ha]
    simp only [Bool.false_eq_true, if_false]
  · intro m i j hi hj
    simp only [startConversation] at hj
    rw [convLoop_registry] at hj
    by_cases ha : lines.any isFarewell = true
    · rw [if_pos ha] at hj
      by_cases hm : m = name
      · subst hm
        unfold incrAffinity at hj
        rw [if_pos rfl, hi] at hj
        have hj2 : some { i with affinity := i.affinity + 1 } = some j := hj
        cases hj2
        exact ⟨rfl, rfl⟩
      · unfold incrAffinity at hj
        rw [if_neg hm, hi] at hj
        cases hj
        exact ⟨rfl, rfl⟩
    · have ha' : lines.any isFarewell = false := by
        cases hx : lines.any isFarewell
        · rfl
        · exact absurd hx ha
      rw [ha'] at hj
      simp only [Bool.false_eq_true, if_false] at hj
      rw [hi] at hj
      cases hj
      exact ⟨rfl, rfl⟩
  · intro hts hload
    unfold gameStep
    by_cases h0 : strTrim cmd = ""
    · rw [if_pos h0]
    · rw [if_neg h0]
      unfold gameStepA
      by_cases h1 : strStartsWith (strToLower (strTrim cmd)) "set prune" = true
      · rw [if_pos h1]
        show (setPruneStep st (strToLower (strTrim cmd))).npcData = st.npcData
        unfold setPruneStep
        by_cases hc : (strFields (strToLower (strTrim cmd))).length = 3
            ∧ ((strFields (strToLower (strTrim cmd))).getD 2 "" == "on"
               || (strFields (strToLower (strTrim cmd))).getD 2 "" == "off")
              = true
        · rw [if_pos hc]
        · rw [if_neg hc]
      · rw [if_neg h1]
        rw [gameStepB_npcData ora file cl (pruneStep ora st) (strTrim cmd)
          (pruneCount st) hts hload]
        unfold pruneStep
        by_cases hp : st.pruneEnabled = true
        · rw [if_pos hp]
        · rw [if_neg hp]
  · intro hload n i h
    unfold gameStep
    by_cases h0 : strTrim cmd = ""
    · rw [if_pos h0]
      exact ⟨i, h, le_refl _, rfl, rfl⟩
    · rw [if_neg h0]
      unfold gameStepA
      by_cases h1 : strStartsWith (strToLower (strTrim cmd)) "set prune" = true
      · rw [if_pos h1]
        refine ⟨i, ?_, le_refl _, rfl, rfl⟩
        show (setPruneStep st (strToLower (strTrim cmd))).npcData n = some i
        unfold setPruneStep
        by_cases hc : (strFields (strToLower (strTrim cmd))).length = 3
            ∧ ((strFields (strToLower (strTrim cmd))).getD 2 "" == "on"
               || (strFields (strToLower (strTrim cmd))).getD 2 "" == "off")
              = true
        · rw [if_pos hc]
          exact h
        · rw [if_neg hc]
          exact h
      · rw [if_neg h1]
        have hp : (pruneStep ora st).npcData n = some i := by
          unfold pruneStep
          by_cases hpe : st.pruneEnabled = true
          · rw [if_pos hpe]
            exact h
          · rw [if_neg hpe]
            exact h
        exact gameStepB_npc_mono ora file cl (pruneStep ora st) (strTrim cmd)
          (pruneCount st) hload n i hp

/-- A concrete game state used in evaluations. -/
def stDemo : GameState :=
  { pruneEnabled := false
    npcData := regEmpty
    sceneDescriptions := fun _ => none
    itemsData := fun _ => none
    playerState := initPlayerState drawsZ
    history := [] }

/-- Witness for C3 (amended) at concrete inputs: completing a conversation
with Selene by saying bye increments her affinity, and the stats command
leaves the registry untouched. -/
theorem c3_affinity_discipline_witness :
    (startConversation oracleK [] regEmpty "Selene" ["bye"]).1 =
      incrAffinity (ensureNpc oracleK [] regEmpty "Selene").1 "Selene"
    ∧ (gameStep oracleK none [] stDemo "stats").1.npcData = stDemo.npcData :=
  ⟨(c3_affinity_discipline oracleK none [] [] regEmpty "Selene" ["bye"]
      stDemo "stats").2.1 (by decide),
   (c3_affinity_discipline oracleK none [] [] regEmpty "Selene" ["bye"]
      stDemo "stats").2.2.2.2.1 (by decide) (by decide)⟩

/-- Selene as first registered (affinity 0). -/
def seleneNpc0 : Npc := ⟨"The head librarian.", "Keeps old secrets.", 0⟩

/-- Selene after one completed conversation (affinity 1). -/
def seleneNpc1 : Npc := ⟨"The head librarian.", "Keeps old secrets.", 1⟩

/-- Registry before the conversation, as captured by an earlier save. -/
def regSel0 : Registry :=
  fun n => if n = "Selene" then some seleneNpc0 else none

/-- Registry after one completed conversation. -/
def regSel1 : Registry :=
  fun n => if n = "Selene" then some seleneNpc1 else none

/-- A save file written before the conversation completed. -/
def savedEarly : SaveData :=
  { npcData := regSel0
    playerState := initPlayerState drawsZ
    history := [] }

/-- The in-memory state after the conversation completed. -/
def stAfterTalk : GameState :=
  { pruneEnabled := false
    npcData := regSel1
    sceneDescriptions := fun _ => none
    itemsData := fun _ => none
    playerState := initPlayerState drawsZ
    history := [] }

/-- Counterexample to claim C3 as stated: the load command also changes
affinity.  Save with affinity 0, complete one conversation (affinity 1),
then type load: Selene drops back to affinity 0 without any conversation
completing, so affinity is changed by a command other than conversation
completion and is not monotonically non-decreasing. -/
theorem c3_load_changes_affinity :
    stAfterTalk.npcData "Selene" = some seleneNpc1
    ∧ (gameStep oracleK (some savedEarly) [] stAfterTalk "load").1.npcData
        "Selene" = some seleneNpc0
    ∧ seleneNpc0.affinity < seleneNpc1.affinity := by
  refine ⟨by decide, by decide, by decide⟩

/-- Claim C10: an input line that trims to empty is a complete no-op at
both input loops: the game loop returns the state unchanged with zero
oracle calls, and the conversation loop treats the line exactly as if it
were absent. -/
theorem c10_empty_noop (ora : Oracle) (file : Option SaveData)
    (cl : List String) (st : GameState) (cmd : String) (reg : Registry)
    (name : String) (conv : List Message) (l : String) (rest : List String) :
    (strTrim cmd = "" → gameStep ora file cl st cmd = (st, 0))
    ∧ (strTrim l = "" →
        convLoop ora reg name conv (l :: rest) =
          convLoop ora reg name conv rest) := by
  constructor
  · intro h
    unfold gameStep
    rw [if_pos h]
  · intro h
    show (if strTrim l = "" then convLoop ora reg name conv rest
      else _) = convLoop ora reg name conv rest
    rw [if_pos h]

/-- Witness for C10: a blank line at the prompt changes nothing, and a
blank line inside a conversation is skipped. -/
theorem c10_empty_noop_witness :
    gameStep oracleK none [] stDemo "   " = (stDemo, 0)
    ∧ convLoop oracleK regEmpty "Selene" [] (" " :: ["bye"]) =
        convLoop oracleK regEmpty "Selene" [] ["bye"] :=
  ⟨(c10_empty_noop oracleK none [] stDemo "   " regEmpty "Selene" [] " "
      ["bye"]).1 (by decide),
   (c10_empty_noop oracleK none [] stDemo "   " regEmpty "Selene" [] " "
      ["bye"]).2 (by decide)⟩

end Adv
